import Mathlib

/-!
Shallow embedding of the PMO tracker extraction/normalization engine
(src/pmo_helpers.py together with the placeholder handling of
src/llm_integration.py), and proofs of the specified properties.

Modelling conventions:
* Python floats are modelled as exact rationals (ℚ); `round(x, 1)` is
  modelled as rounding `x*10` half-to-even (Python's `round`) and dividing
  by 10.
* A raw spreadsheet cell is a `Value`: a missing/NaN/None cell (`vnone`),
  a number, a text, or a date-like cell.  `datetime` values are modelled
  at whole-day granularity as integers (a day index), which is the
  resolution at which array `timedelta.days` is consumed by the code.
* The ambient clock (`datetime.now()`) is passed explicitly as the
  `today : ℤ` argument; the pandas text-to-datetime parser
  (`pd.to_datetime`) is an external library call and is passed explicitly
  as a `toDT : String → Option ℤ` argument.
* String helpers (strip, lower, replace, split) are implemented by
  structural recursion over `List Char` so that they evaluate inside the
  kernel; they mirror the Python string methods used by the source.
  `str()` applied to a non-string cell is modelled by `pyStr`; its exact
  text for numbers/dates is irrelevant to every claim (it is only ever
  fed to keyword searches and blankness tests, and renderings of numbers
  and dates are never blank and never contain health keywords).
* Python's `float()` accepts a few exotic forms (exponent underscores,
  "inf", "nan") that no tracker cell and no claim exercises; `pyF`
  models the sign/digits/decimal-point/exponent forms.
-/

/-- Whitespace test used by the Python `str.strip` / `str.split` models. -/
def isWs (c : Char) : Bool := c.isWhitespace

/-- Both-ends whitespace strip on a character list (Python `str.strip()`). -/
def trimList (l : List Char) : List Char :=
  ((l.dropWhile isWs).reverse.dropWhile isWs).reverse

/-- Python `str.strip()`. -/
def pyStrip (s : String) : String := String.mk (trimList s.data)

/-- Python `str.lower()` (the cells in play are ASCII). -/
def pyLower (s : String) : String := String.mk (s.data.map Char.toLower)

/-- Does `p` occur as a prefix of `l`?  On success return what follows it. -/
def dropLead : List Char → List Char → Option (List Char)
  | [], l => some l
  | _ :: _, [] => none
  | p :: ps, c :: cs => if p = c then dropLead ps cs else none

/-- Prefix test at the head of a character list. -/
def leadMatch (pat l : List Char) : Bool := (dropLead pat l).isSome

/-- Contiguous-substring test (Python `pat in s`). -/
def containsSub (pat : List Char) : List Char → Bool
  | [] => pat.isEmpty
  | c :: cs => leadMatch pat (c :: cs) || containsSub pat cs

/-- Python `pat in s` on strings. -/
def hasSub (s pat : String) : Bool := containsSub pat.data s.data

/-- Left-to-right non-overlapping deletion of every occurrence of `pat`;
fuelled so that the recursion is structural (the fuel is the input
length, which always suffices because each step consumes at least one
character when `pat` is nonempty). -/
def pyDelAux (pat : List Char) : ℕ → List Char → List Char
  | 0, l => l
  | fuel + 1, l =>
    match l with
    | [] => []
    | c :: cs =>
      match dropLead pat l with
      | some rest => pyDelAux pat fuel rest
      | none => c :: pyDelAux pat fuel cs

/-- Python `s.replace(pat, '')` (every use in the source deletes the
pattern; `pat` is nonempty at every call site). -/
def pyRemove (s : String) (pat : String) : String :=
  String.mk (pyDelAux pat.data s.data.length s.data)

/-- Python `s.startswith(pre)`. -/
def pyStartsWith (s pre : String) : Bool := leadMatch pre.data s.data

/-- Python `s.endswith(suf)`. -/
def pyEndsWith (s suf : String) : Bool := leadMatch suf.data.reverse s.data.reverse

/-- Python `s[:-1]` on a nonempty string (drop the final character). -/
def pyDropLast (s : String) : String := String.mk (s.data.take (s.data.length - 1))

/-- Worker for `str.split()`: maximal non-whitespace runs in order. -/
def wordsAux : List Char → List Char → List (List Char)
  | [], acc => if acc.isEmpty then [] else [acc.reverse]
  | c :: cs, acc =>
    if isWs c then
      (if acc.isEmpty then wordsAux cs [] else acc.reverse :: wordsAux cs [])
    else wordsAux cs (c :: acc)

/-- Python `str.split()` with no separator: whitespace-delimited words. -/
def words (l : List Char) : List (List Char) := wordsAux l []

/-- Python `' '.join(ws)`. -/
def joinWords : List (List Char) → List Char
  | [] => []
  | [w] => w
  | w :: ws => w ++ (' ' :: joinWords ws)

/-- Digit-string value (the strings fed to it are all-digit). -/
def digitsToNat (l : List Char) : ℕ := l.foldl (fun n c => n * 10 + (c.toNat - 48)) 0

/-- Mantissa value of `ip . fp`. -/
def mantissa (ip fp : List Char) : ℚ :=
  (digitsToNat ip : ℚ) + (digitsToNat fp : ℚ) / (10 : ℚ) ^ fp.length

/-- Exponent digits (nonempty, all digits). -/
def expNat (l : List Char) : Option ℤ :=
  if !l.isEmpty && l.all Char.isDigit then some (digitsToNat l : ℤ) else none

/-- Optionally signed exponent digits. -/
def parseExpDigits : List Char → Option ℤ
  | '+' :: rest => expNat rest
  | '-' :: rest => (expNat rest).map Neg.neg
  | l => expNat l

/-- The optional `e`/`E` exponent suffix; empty input means exponent 0. -/
def parseExp : List Char → Option ℤ
  | [] => some 0
  | c :: rest => if c = 'e' ∨ c = 'E' then parseExpDigits rest else none

/-- Digits, optional decimal point, optional exponent: the body of a
Python `float()` literal after the sign. -/
def parseBody (l : List Char) : Option ℚ :=
  let ip := l.takeWhile Char.isDigit
  let rest1 := l.dropWhile Char.isDigit
  match rest1 with
  | '.' :: rest2 =>
    let fp := rest2.takeWhile Char.isDigit
    let rest3 := rest2.dropWhile Char.isDigit
    if ip.isEmpty && fp.isEmpty then none
    else (parseExp rest3).map (fun e => mantissa ip fp * (10 : ℚ) ^ e)
  | _ =>
    if ip.isEmpty then none
    else (parseExp rest1).map (fun e => (digitsToNat ip : ℚ) * (10 : ℚ) ^ e)

/-- Leading sign of a `float()` literal. -/
def parseSigned : List Char → Option ℚ
  | '+' :: rest => parseBody rest
  | '-' :: rest => (parseBody rest).map Neg.neg
  | l => parseBody l

/-- Model of Python `float(s)`: surrounding whitespace is ignored, then an
optionally signed digits/point/exponent literal; `none` models the
`ValueError` that the callers catch. -/
def pyF (s : String) : Option ℚ := parseSigned (trimList s.data)

/-- A raw spreadsheet cell. -/
inductive Value where
  | vnone : Value
  | vnum : ℚ → Value
  | vstr : String → Value
  | vdate : ℤ → Value
deriving DecidableEq

/-- One input row: actual column header to raw cell value. -/
abbrev Row := List (String × Value)

/-- FieldKey to resolved actual header. -/
abbrev CMap := List (String × String)

/-- A decoded first worksheet: headers plus rows. -/
structure Df where
  headers : List String
  rows : List Row

/-- Model of `str()` on a cell.  Exact rendering of numbers and dates is
irrelevant to every claim: it is fixed, never blank, and contains no
health keyword. -/
def pyStr : Value → String
  | Value.vstr s => s
  | Value.vnum q => toString q
  | Value.vdate d => toString d
  | Value.vnone => "nan"

/-- `COLUMN_MAPPING` of src/pmo_helpers.py, transcribed verbatim. -/
def COLUMN_MAPPING : List (String × List String) :=
  [("project_number", ["#", "No", "Number", "Project #", "ID"]),
   ("project_name", ["Project Name", "Name", "Project Title"]),
   ("project_category", ["Project Category", "Category", "Type"]),
   ("project_status", ["Project Status", "Status"]),
   ("gm", ["GM", "General Manager", "Sponsor GM"]),
   ("director", ["SPLD Director / GM", "Director", "SPLD Director", "Project Director"]),
   ("operational_lead", ["Project operational Lead", "Operational Lead", "Lead", "Project Lead", "Project Manager"]),
   ("contract_end_date", ["Contract End Date", "End Date", "Finish Date", "Deadline"]),
   ("days_remaining", ["Days Remaining (Until Contract End)", "Days Remaining", "Days Left"]),
   ("budget_spent", ["Budget (Spent)", "Budget Spent", "Spent", "Actual Cost"]),
   ("budget_remaining", ["Budget Remaining", "Remaining Budget", "Budget Left"]),
   ("timeline_actual", ["timeline Actual", "Actual Progress", "Actual %", "Progress Actual"]),
   ("timeline_planned", ["timeline planned", "Planned Progress", "Planned %", "Progress Planned"]),
   ("kpi", ["Service delivery Performance KPI", "KPI", "Performance KPI"]),
   ("service_performance", ["Service delivery Performance", "Performance", "Service Performance"]),
   ("project_health", ["Project health (on track - at risk - off track)", "Project Health", "Health", "Status Health"]),
   ("issues", ["Issues (From Owner List)", "Issues", "Current Issues"]),
   ("risks", ["Risks", "Risk", "Project Risks"]),
   ("current_activities", ["Current activites", "Current Activities", "Current Work"]),
   ("future_activities", ["Future Activites", "Future Activities", "Next Steps", "Upcoming Activities"]),
   ("comments", ["Comments  to the owner", "Comments", "Notes", "Owner Comments"]),
   ("vendor", ["Vendor", "Supplier", "Contractor"])]

/-- The fixed FieldKey vocabulary, in declaration order. -/
def COLUMN_KEYS : List String := COLUMN_MAPPING.map Prod.fst

/-- `COLUMN_MAPPING.get(column_key, [])`. -/
def colCandidates (key : String) : List String := (COLUMN_MAPPING.lookup key).getD []

/-- `col.lower().strip()`: the case/whitespace-insensitive comparison key. -/
def ciNorm (s : String) : String := pyStrip (pyLower s)

/-- The candidate loop of `find_column`: exact header match first, then a
scan of the headers under `ciNorm` equality, then the next candidate. -/
def fcAux (headers : List String) : List String → Option String
  | [] => none
  | name :: rest =>
    if name ∈ headers then some name
    else
      match headers.find? (fun col => decide (ciNorm col = ciNorm name)) with
      | some col => some col
      | none => fcAux headers rest

/-- `find_column(df, column_key)` of src/pmo_helpers.py. -/
def find_column (df : Df) (key : String) : Option String :=
  fcAux df.headers (colCandidates key)

/-- `map_columns(df)` of src/pmo_helpers.py: the resolved-key map and the
list of unresolved keys, both in `COLUMN_MAPPING` key order (the single
Python loop builds them together; this is the same pass split in two). -/
def map_columns (df : Df) : CMap × List String :=
  (COLUMN_KEYS.filterMap (fun k => (find_column df k).map (fun c => (k, c))),
   COLUMN_KEYS.filter (fun k => (find_column df k).isNone))

/-- `safe_get(row, column_map, key, default)` of src/pmo_helpers.py.
`pd.isna` holds exactly on the `vnone` cells. -/
def safe_get (row : Row) (cmap : CMap) (key : String) (default : Value) : Value :=
  match cmap.lookup key with
  | some col =>
    match row.lookup col with
    | some v => if v = Value.vnone then default else v
    | none => default
  | none => default

/-- `parse_number(value, default)` of src/pmo_helpers.py. -/
def parse_number (v : Value) (default : ℚ) : ℚ :=
  match v with
  | Value.vnone => default
  | Value.vnum q => q
  | Value.vstr s =>
    if s = "" then default
    else
      match pyF (pyStrip (pyRemove (pyRemove (pyRemove s ",") "SAR") "$")) with
      | some x => x
      | none => default
  | Value.vdate _ => default

/-- `parse_percentage(value, default)` of src/pmo_helpers.py.  Note: the
source removes every `%` character (`str.replace('%', '')`), not only a
trailing one. -/
def parse_percentage (v : Value) (default : ℚ) : ℚ :=
  match v with
  | Value.vnone => default
  | Value.vnum q => if q ≤ 1 then q * 100 else q
  | Value.vstr s =>
    if s = "" then default
    else
      match pyF (pyStrip (pyRemove s "%")) with
      | some x => if x ≤ 1 then x * 100 else x
      | none => default
  | Value.vdate _ => default

/-- The percentage parser as the specification words it: strip surrounding
whitespace and one trailing `%`, then parse.  Stated only to be compared
with `parse_percentage`, the translation of the source. -/
def parse_percentage_claim (v : Value) (default : ℚ) : ℚ :=
  match v with
  | Value.vnone => default
  | Value.vnum q => if q ≤ 1 then q * 100 else q
  | Value.vstr s =>
    if s = "" then default
    else
      let t := pyStrip s
      let t2 := if pyEndsWith t "%" then pyDropLast t else t
      match pyF t2 with
      | some x => if x ≤ 1 then x * 100 else x
      | none => default
  | Value.vdate _ => default

/-- `parse_date(value)` of src/pmo_helpers.py.  Already-date values pass
through; text goes to the external pandas parser `toDT`; a numeric cell is
modelled as unparseable (no claim exercises the pandas numeric-timestamp
interpretation). -/
def parse_date (toDT : String → Option ℤ) (v : Value) : Option ℤ :=
  match v with
  | Value.vnone => none
  | Value.vdate d => some d
  | Value.vstr s => if s = "" then none else toDT s
  | Value.vnum _ => none

/-- `calculate_days_remaining(end_date)` of src/pmo_helpers.py, with the
clock explicit. -/
def calculate_days_remaining (end_date : Option ℤ) (today : ℤ) : ℤ :=
  match end_date with
  | none => 0
  | some e => max 0 (e - today)

/-- Round half-to-even to an integer (Python `round` on an exact value). -/
def rhe (x : ℚ) : ℤ :=
  if x - ⌊x⌋ < 1/2 then ⌊x⌋
  else if 1/2 < x - ⌊x⌋ then ⌊x⌋ + 1
  else if ⌊x⌋ % 2 = 0 then ⌊x⌋ else ⌊x⌋ + 1

/-- Python `round(x, 1)` on an exact value. -/
def round1 (x : ℚ) : ℚ := (rhe (x * 10) : ℚ) / 10

/-- Python `int()` on a float: truncation toward zero. -/
def pyInt (q : ℚ) : ℤ := if q < 0 then -⌊-q⌋ else ⌊q⌋

/-- `calculate_budget_utilization(spent, remaining)` of src/pmo_helpers.py. -/
def calculate_budget_utilization (spent remaining : ℚ) : ℚ × ℚ :=
  let total := spent + remaining
  if total = 0 then (0, 0)
  else (round1 (spent / total * 100), round1 (remaining / total * 100))

/-- The renderer color vocabulary of `determine_health_color`:
green = positive, orange = caution, red = negative, gray = neutral. -/
inductive HColor where
  | green : HColor
  | orange : HColor
  | red : HColor
  | gray : HColor
deriving DecidableEq

/-- The keyword cascade of `determine_health_color` over the lowered,
stripped health text. -/
def classifyHealth (status : String) : HColor :=
  if hasSub status "on track" || hasSub status "on-track" then HColor.green
  else if hasSub status "at risk" || hasSub status "at-risk" then HColor.orange
  else if hasSub status "off track" || hasSub status "delayed" || hasSub status "off-track" then HColor.red
  else HColor.gray

/-- `determine_health_color(health_status)` of src/pmo_helpers.py. -/
def determine_health_color (v : Value) : HColor :=
  if v = Value.vnone ∨ v = Value.vstr "" then HColor.gray
  else classifyHealth (pyStrip (pyLower (pyStr v)))

/-- The collapse/truncate body of `clean_text` on a non-blank value:
`' '.join(text.strip().split())`, then `text[:max_length] + '...'` when it
is longer than `max_length`. -/
def clean_core (s : String) (max_length : ℕ) : String :=
  let t := joinWords (words (trimList s.data))
  if max_length < t.length then String.mk (t.take max_length ++ ['.', '.', '.'])
  else String.mk t

/-- `clean_text(text, max_length)` of src/pmo_helpers.py. -/
def clean_text (v : Value) (max_length : ℕ) : String :=
  match v with
  | Value.vnone => "[To be provided]"
  | Value.vstr s => if s = "" then "[To be provided]" else clean_core s max_length
  | Value.vnum q => clean_core (pyStr (Value.vnum q)) max_length
  | Value.vdate d => clean_core (pyStr (Value.vdate d)) max_length

/-- The normalized output record of `extract_project_data`, with the field
vocabulary of the source dictionary. -/
structure ProjectRecord where
  number : Value
  name : Value
  category : Value
  status : Value
  gm : Value
  director : Value
  operational_lead : Value
  vendor : Value
  contract_end_date : String
  days_remaining : ℤ
  budget_spent : ℚ
  budget_remaining : ℚ
  budget_total : ℚ
  budget_spent_pct : ℚ
  budget_remaining_pct : ℚ
  timeline_actual : ℚ
  timeline_planned : ℚ
  schedule_variance : ℚ
  kpi : String
  service_performance : Value
  health : Value
  health_color : HColor
  issues : String
  risks : String
  current_activities : String
  future_activities : String
  comments : String

/-- Model of `strftime('%d %b %Y')`: a fixed, clock-independent rendering
of the parsed end date (its exact text is irrelevant to every claim). -/
def dateStr (d : ℤ) : String := toString d

/-- `extract_project_data(row, column_map)` of src/pmo_helpers.py, with
the external pandas date parser and the clock explicit. -/
def extract_project_data (toDT : String → Option ℤ) (row : Row) (cmap : CMap)
    (today : ℤ) : ProjectRecord :=
  let end_date := parse_date toDT (safe_get row cmap "contract_end_date" (Value.vstr ""))
  let computed_days := calculate_days_remaining end_date today
  let excel_days := parse_number (safe_get row cmap "days_remaining" (Value.vstr "")) 0
  let budget_spent := parse_number (safe_get row cmap "budget_spent" (Value.vstr "")) 0
  let budget_remaining := parse_number (safe_get row cmap "budget_remaining" (Value.vstr "")) 0
  let pcts := calculate_budget_utilization budget_spent budget_remaining
  let actual_progress := parse_percentage (safe_get row cmap "timeline_actual" (Value.vstr "")) 0
  let planned_progress := parse_percentage (safe_get row cmap "timeline_planned" (Value.vstr "")) 0
  let health := safe_get row cmap "project_health" (Value.vstr "")
  { number := safe_get row cmap "project_number" (Value.vstr "")
    name := safe_get row cmap "project_name" (Value.vstr "Unnamed Project")
    category := safe_get row cmap "project_category" (Value.vstr "")
    status := safe_get row cmap "project_status" (Value.vstr "")
    gm := safe_get row cmap "gm" (Value.vstr "")
    director := safe_get row cmap "director" (Value.vstr "")
    operational_lead := safe_get row cmap "operational_lead" (Value.vstr "")
    vendor := safe_get row cmap "vendor" (Value.vstr "")
    contract_end_date := match end_date with
      | some d => dateStr d
      | none => "[TBD]"
    days_remaining := if computed_days = 0 ∧ 0 < excel_days then pyInt excel_days else computed_days
    budget_spent := budget_spent
    budget_remaining := budget_remaining
    budget_total := budget_spent + budget_remaining
    budget_spent_pct := pcts.1
    budget_remaining_pct := pcts.2
    timeline_actual := round1 actual_progress
    timeline_planned := round1 planned_progress
    schedule_variance := round1 (actual_progress - planned_progress)
    kpi := clean_text (safe_get row cmap "kpi" (Value.vstr "")) 200
    service_performance := safe_get row cmap "service_performance" (Value.vstr "TBD")
    health := health
    health_color := determine_health_color health
    issues := clean_text (safe_get row cmap "issues" (Value.vstr "")) 500
    risks := clean_text (safe_get row cmap "risks" (Value.vstr "")) 500
    current_activities := clean_text (safe_get row cmap "current_activities" (Value.vstr "")) 500
    future_activities := clean_text (safe_get row cmap "future_activities" (Value.vstr "")) 500
    comments := clean_text (safe_get row cmap "comments" (Value.vstr "")) 500 }

/-- The row-skip test of `process_excel_file`: the row is kept when its
resolved name value is present and not whitespace-only (`str()` of a
numeric or date cell is never blank). -/
def nonBlankName (cmap : CMap) (r : Row) : Bool :=
  match safe_get r cmap "project_name" (Value.vstr "") with
  | Value.vnone => false
  | Value.vstr s => !(pyStrip s = "")
  | Value.vnum _ => true
  | Value.vdate _ => true

/-- `process_excel_file` of src/pmo_helpers.py, starting from the decoded
first worksheet (the byte decoding `pd.read_excel` is an external call;
its own failure is caught by the same `try` and surfaced as an error
string).  The result pair is `(projects, error)` as in the source. -/
def process_excel_file (toDT : String → Option ℤ) (df : Df) (today : ℤ) :
    Option (List ProjectRecord) × Option String :=
  let mc := map_columns df
  let cmap := mc.1
  let missing := mc.2
  if "project_name" ∈ missing then
    (none, some "Missing critical columns: project_name")
  else
    let projects := (df.rows.filter (fun r => nonBlankName cmap r)).map
      (fun r => extract_project_data toDT r cmap today)
    if projects.isEmpty then (none, some "No valid projects found in the Excel file")
    else (some projects, none)

/-- The placeholder phrase list of `LLMFormatter.format_text`
(src/llm_integration.py). -/
def placeholder_phrases : List String :=
  ["owner to share", "to be provided", "tbd", "n/a", "na", "none", "nil"]

/-- `LLMFormatter.format_text(text, context)` of src/llm_integration.py.
`clientSome` models `self.client is not None`; `llm` models the external
chat-completion call, `none` standing for the exception path (on which
the original text is returned). -/
def format_text (clientSome : Bool) (llm : String → String → Option String)
    (text context : String) : String :=
  if !clientSome || text = "" || pyStrip text = "" then text
  else if placeholder_phrases.any (fun ph => hasSub (pyLower text) ph) then "[To be provided]"
  else
    match llm text context with
    | some r => r
    | none => text

/-- The per-field guard of `format_project_text`: the field is rewritten
only when non-empty, not already a `[`-bracketed placeholder, and not the
exact text `TBD`. -/
def fmtField (llm : String → String → Option String) (s context : String) : String :=
  if !(s = "") && !(pyStartsWith s "[") && !(s = "TBD") then format_text true llm s context
  else s

/-- `format_project_text(project_data)` of src/llm_integration.py:
identity when no LLM client is available, otherwise the five narrative
fields are passed through `format_text` under the `fmtField` guard. -/
def format_project_text (clientSome : Bool) (llm : String → String → Option String)
    (p : ProjectRecord) : ProjectRecord :=
  if clientSome then
    { p with
      current_activities := fmtField llm p.current_activities "activities"
      future_activities := fmtField llm p.future_activities "activities"
      risks := fmtField llm p.risks "risks"
      issues := fmtField llm p.issues "issues"
      comments := fmtField llm p.comments "general" }
  else p

/-- A concrete stand-in for the external pandas date parser: no text cell
parses.  Used only to instantiate theorems at concrete inputs. -/
def toDT0 : String → Option ℤ := fun _ => none

/-- A concrete stand-in for the external chat-completion call: always the
exception path.  Used only to instantiate theorems at concrete inputs. -/
def noLLM : String → String → Option String := fun _ _ => none

/-- A record with its clock-derived day count forgotten: used to state
which part of `extract_project_data` depends on the current date. -/
def stripDays (p : ProjectRecord) : ProjectRecord := { p with days_remaining := 0 }

/-! ## Helper lemmas -/

theorem rhe_err (x : ℚ) : |(rhe x : ℚ) - x| ≤ 1/2 := by
  have hfl : ((⌊x⌋ : ℤ) : ℚ) ≤ x := Int.floor_le x
  have hfu : x < ⌊x⌋ + 1 := Int.lt_floor_add_one x
  unfold rhe
  split_ifs with h1 h2 h3 <;> rw [abs_le] <;> constructor <;> push_cast <;> linarith

theorem round1_err (x : ℚ) : |round1 x - x| ≤ 1/20 := by
  have h := rhe_err (x * 10)
  unfold round1
  have hx : (rhe (x * 10) : ℚ) / 10 - x = ((rhe (x * 10) : ℚ) - x * 10) / 10 := by ring
  rw [hx, abs_div, abs_of_pos (by norm_num : (0:ℚ) < 10)]
  linarith

theorem rhe_eq_lo (x : ℚ) (n : ℤ) (hn : ⌊x⌋ = n) (h : x - n < 1/2) : rhe x = n := by
  unfold rhe
  rw [hn]
  exact if_pos h

theorem rhe_eq_hi (x : ℚ) (n : ℤ) (hn : ⌊x⌋ = n) (h : 1/2 < x - n) : rhe x = n + 1 := by
  unfold rhe
  rw [hn, if_neg (not_lt.mpr (le_of_lt h)), if_pos h]

theorem round1_eq_lo (x : ℚ) (n : ℤ) (h1 : (n : ℚ) ≤ x * 10) (h2 : x * 10 < n + 1)
    (h : x * 10 - n < 1/2) : round1 x = (n : ℚ) / 10 := by
  have hn : ⌊x * 10⌋ = n := by
    rw [Int.floor_eq_iff]
    exact ⟨h1, h2⟩
  unfold round1
  rw [rhe_eq_lo (x * 10) n hn h]

theorem round1_eq_hi (x : ℚ) (n : ℤ) (h1 : (n : ℚ) ≤ x * 10) (h2 : x * 10 < n + 1)
    (h : 1/2 < x * 10 - n) : round1 x = ((n : ℚ) + 1) / 10 := by
  have hn : ⌊x * 10⌋ = n := by
    rw [Int.floor_eq_iff]
    exact ⟨h1, h2⟩
  unfold round1
  rw [rhe_eq_hi (x * 10) n hn h]
  norm_cast

theorem cbu_zero (s r : ℚ) (h : s + r = 0) : calculate_budget_utilization s r = (0, 0) := by
  simp only [calculate_budget_utilization]
  rw [if_pos h]

theorem cbu_pos (s r : ℚ) (h : 0 < s + r) :
    calculate_budget_utilization s r =
      (round1 (s / (s + r) * 100), round1 (r / (s + r) * 100)) ∧
    |(calculate_budget_utilization s r).1 + (calculate_budget_utilization s r).2 - 100| ≤ 1/10 := by
  have hne : s + r ≠ 0 := ne_of_gt h
  have heq : calculate_budget_utilization s r =
      (round1 (s / (s + r) * 100), round1 (r / (s + r) * 100)) := by
    simp only [calculate_budget_utilization]
    rw [if_neg hne]
  refine ⟨heq, ?_⟩
  rw [heq]
  have hsum : s / (s + r) * 100 + r / (s + r) * 100 = 100 := by
    have hx : s / (s + r) * 100 + r / (s + r) * 100 = (s + r) / (s + r) * 100 := by ring
    rw [hx, div_self hne, one_mul]
  have e1 := round1_err (s / (s + r) * 100)
  have e2 := round1_err (r / (s + r) * 100)
  rw [abs_le] at e1 e2 ⊢
  constructor <;> [skip; skip] <;> simp only [Prod.fst, Prod.snd] <;> linarith

theorem calculate_days_remaining_nonneg (o : Option ℤ) (t : ℤ) :
    0 ≤ calculate_days_remaining o t := by
  cases o with
  | none => exact le_refl 0
  | some v => exact le_max_left 0 (v - t)

/-! ## Claim theorems -/

/-- C1: for every record produced by extraction, `budget_total` is derived
as `budget_spent + budget_remaining`; when the total is zero both
percentage fields are exactly 0; when the total is positive the
percentage pair is `(round1 (spent/total*100), round1 (remaining/total*100))`
and the two percentages sum to 100 within one-decimal rounding. -/
theorem C1_budget_invariant (toDT : String → Option ℤ) (row : Row) (cmap : CMap) (today : ℤ) :
    (extract_project_data toDT row cmap today).budget_total =
      (extract_project_data toDT row cmap today).budget_spent +
        (extract_project_data toDT row cmap today).budget_remaining
    ∧ ((extract_project_data toDT row cmap today).budget_total = 0 →
        (extract_project_data toDT row cmap today).budget_spent_pct = 0 ∧
        (extract_project_data toDT row cmap today).budget_remaining_pct = 0)
    ∧ (0 < (extract_project_data toDT row cmap today).budget_total →
        (extract_project_data toDT row cmap today).budget_spent_pct =
          round1 ((extract_project_data toDT row cmap today).budget_spent /
            (extract_project_data toDT row cmap today).budget_total * 100) ∧
        (extract_project_data toDT row cmap today).budget_remaining_pct =
          round1 ((extract_project_data toDT row cmap today).budget_remaining /
            (extract_project_data toDT row cmap today).budget_total * 100) ∧
        |(extract_project_data toDT row cmap today).budget_spent_pct +
          (extract_project_data toDT row cmap today).budget_remaining_pct - 100| ≤ 1/10) := by
  have ht : (extract_project_data toDT row cmap today).budget_total =
      (extract_project_data toDT row cmap today).budget_spent +
        (extract_project_data toDT row cmap today).budget_remaining := rfl
  have hs : (extract_project_data toDT row cmap today).budget_spent_pct =
      (calculate_budget_utilization (extract_project_data toDT row cmap today).budget_spent
        (extract_project_data toDT row cmap today).budget_remaining).1 := rfl
  have hr : (extract_project_data toDT row cmap today).budget_remaining_pct =
      (calculate_budget_utilization (extract_project_data toDT row cmap today).budget_spent
        (extract_project_data toDT row cmap today).budget_remaining).2 := rfl
  refine ⟨ht, ?_, ?_⟩
  · intro h0
    rw [ht] at h0
    have hz := cbu_zero _ _ h0
    rw [hs, hr, hz]
    exact ⟨rfl, rfl⟩
  · intro hpos
    rw [ht] at hpos
    obtain ⟨heq, hb⟩ := cbu_pos _ _ hpos
    refine ⟨?_, ?_, ?_⟩
    · rw [hs, heq, ht]
    · rw [hr, heq, ht]
    · rw [hs, hr]
      exact hb

/-- C1 witness: a concrete row with spent 1000 / remaining 500 exercises
the positive-total branch, the empty row the zero-total branch. -/
theorem C1_budget_invariant_witness :
    (0 < (extract_project_data toDT0
        [("Budget (Spent)", Value.vnum 1000), ("Budget Remaining", Value.vnum 500)]
        [("budget_spent", "Budget (Spent)"), ("budget_remaining", "Budget Remaining")]
        0).budget_total ∧
      |(extract_project_data toDT0
        [("Budget (Spent)", Value.vnum 1000), ("Budget Remaining", Value.vnum 500)]
        [("budget_spent", "Budget (Spent)"), ("budget_remaining", "Budget Remaining")]
        0).budget_spent_pct +
       (extract_project_data toDT0
        [("Budget (Spent)", Value.vnum 1000), ("Budget Remaining", Value.vnum 500)]
        [("budget_spent", "Budget (Spent)"), ("budget_remaining", "Budget Remaining")]
        0).budget_remaining_pct - 100| ≤ 1/10) ∧
    ((extract_project_data toDT0 [] [] 0).budget_total = 0 ∧
      (extract_project_data toDT0 [] [] 0).budget_spent_pct = 0) := by
  have h1 : 0 < (extract_project_data toDT0
      [("Budget (Spent)", Value.vnum 1000), ("Budget Remaining", Value.vnum 500)]
      [("budget_spent", "Budget (Spent)"), ("budget_remaining", "Budget Remaining")]
      0).budget_total := by
    show (0:ℚ) < parse_number (Value.vnum 1000) 0 + parse_number (Value.vnum 500) 0
    norm_num [parse_number]
  have h2 := (C1_budget_invariant toDT0
      [("Budget (Spent)", Value.vnum 1000), ("Budget Remaining", Value.vnum 500)]
      [("budget_spent", "Budget (Spent)"), ("budget_remaining", "Budget Remaining")]
      0).2.2 h1
  have h0 : (extract_project_data toDT0 [] [] 0).budget_total = 0 := by
    show parse_number (Value.vstr "") 0 + parse_number (Value.vstr "") 0 = 0
    norm_num [parse_number]
  have h3 := (C1_budget_invariant toDT0 [] [] 0).2.1 h0
  exact ⟨⟨h1, h2.2.2⟩, ⟨h0, h3.1⟩⟩

/-- C6: `calculate_days_remaining` is `max 0 (end − today)` for a parsed
end date and 0 for none, hence never negative; in the extractor the
explicit tracker day-count replaces the computed value exactly when the
computed value is 0 and the explicit value is positive, so
`days_remaining` is never negative and an explicit count never overrides
a positive computed value. -/
theorem C6_days_remaining (toDT : String → Option ℤ) (row : Row) (cmap : CMap)
    (today : ℤ) (e : ℤ) (d : Option ℤ) :
    calculate_days_remaining none today = 0
    ∧ calculate_days_remaining (some e) today = max 0 (e - today)
    ∧ 0 ≤ calculate_days_remaining d today
    ∧ 0 ≤ (extract_project_data toDT row cmap today).days_remaining
    ∧ (0 < calculate_days_remaining
          (parse_date toDT (safe_get row cmap "contract_end_date" (Value.vstr ""))) today →
        (extract_project_data toDT row cmap today).days_remaining =
          calculate_days_remaining
            (parse_date toDT (safe_get row cmap "contract_end_date" (Value.vstr ""))) today)
    ∧ (calculate_days_remaining
          (parse_date toDT (safe_get row cmap "contract_end_date" (Value.vstr ""))) today = 0 →
        0 < parse_number (safe_get row cmap "days_remaining" (Value.vstr "")) 0 →
        (extract_project_data toDT row cmap today).days_remaining =
          pyInt (parse_number (safe_get row cmap "days_remaining" (Value.vstr "")) 0))
    ∧ (calculate_days_remaining
          (parse_date toDT (safe_get row cmap "contract_end_date" (Value.vstr ""))) today = 0 →
        ¬ 0 < parse_number (safe_get row cmap "days_remaining" (Value.vstr "")) 0 →
        (extract_project_data toDT row cmap today).days_remaining = 0) := by
  have hd : (extract_project_data toDT row cmap today).days_remaining =
      if calculate_days_remaining
            (parse_date toDT (safe_get row cmap "contract_end_date" (Value.vstr ""))) today = 0
          ∧ 0 < parse_number (safe_get row cmap "days_remaining" (Value.vstr "")) 0 then
        pyInt (parse_number (safe_get row cmap "days_remaining" (Value.vstr "")) 0)
      else
        calculate_days_remaining
          (parse_date toDT (safe_get row cmap "contract_end_date" (Value.vstr ""))) today := rfl
  refine ⟨rfl, rfl, calculate_days_remaining_nonneg d today, ?_, ?_, ?_, ?_⟩
  · rw [hd]
    split_ifs with h
    · have hex := h.2
      simp only [pyInt]
      rw [if_neg (not_lt.mpr (le_of_lt hex))]
      exact Int.floor_nonneg.mpr (le_of_lt hex)
    · exact calculate_days_remaining_nonneg _ today
  · intro h
    rw [hd, if_neg]
    rintro ⟨h0, _⟩
    omega
  · intro h0 hex
    rw [hd, if_pos ⟨h0, hex⟩]
  · intro h0 hex
    rw [hd, if_neg fun hc => hex hc.2]
    exact h0

/-- C6 witness: a future end date gives the computed 5 days untouched by
the fallback; a past end date with an explicit count 30 takes the
explicit value; an empty row gives 0. -/
theorem C6_days_remaining_witness :
    (extract_project_data toDT0 [("Contract End Date", Value.vdate 5)]
      [("contract_end_date", "Contract End Date")] 0).days_remaining = 5
    ∧ (extract_project_data toDT0
        [("Contract End Date", Value.vdate (-3)), ("Days Remaining", Value.vnum 30)]
        [("contract_end_date", "Contract End Date"), ("days_remaining", "Days Remaining")]
        0).days_remaining = 30
    ∧ (extract_project_data toDT0 [] [] 0).days_remaining = 0 := by
  have ha := (C6_days_remaining toDT0 [("Contract End Date", Value.vdate 5)]
      [("contract_end_date", "Contract End Date")] 0 0 none).2.2.2.2.1 (by decide)
  have hb := (C6_days_remaining toDT0
      [("Contract End Date", Value.vdate (-3)), ("Days Remaining", Value.vnum 30)]
      [("contract_end_date", "Contract End Date"), ("days_remaining", "Days Remaining")]
      0 0 none).2.2.2.2.2.1 (by decide)
      (by show (0:ℚ) < (30:ℚ); norm_num)
  have hc := (C6_days_remaining toDT0 [] [] 0 0 none).2.2.2.2.2.2 (by decide)
      (by show ¬ (0:ℚ) < (0:ℚ); norm_num)
  refine ⟨?_, ?_, hc⟩
  · rw [ha]
    decide
  · rw [hb]
    show pyInt 30 = 30
    simp only [pyInt]
    rw [if_neg (by norm_num : ¬ (30:ℚ) < 0)]
    rw [Int.floor_eq_iff]
    constructor <;> norm_num

/-- C2: health classification is a case-insensitive substring cascade over
the lowered, stripped health text with fixed priority (on-track wins over
at-risk, which wins over off-track/delayed); blank or missing text is
neutral (gray); in particular text containing both "on track" and
"delayed" classifies green. -/
theorem C2_health_classification (s : String) :
    determine_health_color Value.vnone = HColor.gray
    ∧ determine_health_color (Value.vstr "") = HColor.gray
    ∧ (s ≠ "" →
        ((hasSub (pyStrip (pyLower s)) "on track" || hasSub (pyStrip (pyLower s)) "on-track") = true →
          determine_health_color (Value.vstr s) = HColor.green)
        ∧ ((hasSub (pyStrip (pyLower s)) "on track" || hasSub (pyStrip (pyLower s)) "on-track") = false →
            (hasSub (pyStrip (pyLower s)) "at risk" || hasSub (pyStrip (pyLower s)) "at-risk") = true →
            determine_health_color (Value.vstr s) = HColor.orange)
        ∧ ((hasSub (pyStrip (pyLower s)) "on track" || hasSub (pyStrip (pyLower s)) "on-track") = false →
            (hasSub (pyStrip (pyLower s)) "at risk" || hasSub (pyStrip (pyLower s)) "at-risk") = false →
            (hasSub (pyStrip (pyLower s)) "off track" || hasSub (pyStrip (pyLower s)) "delayed" ||
              hasSub (pyStrip (pyLower s)) "off-track") = true →
            determine_health_color (Value.vstr s) = HColor.red)
        ∧ ((hasSub (pyStrip (pyLower s)) "on track" || hasSub (pyStrip (pyLower s)) "on-track") = false →
            (hasSub (pyStrip (pyLower s)) "at risk" || hasSub (pyStrip (pyLower s)) "at-risk") = false →
            (hasSub (pyStrip (pyLower s)) "off track" || hasSub (pyStrip (pyLower s)) "delayed" ||
              hasSub (pyStrip (pyLower s)) "off-track") = false →
            determine_health_color (Value.vstr s) = HColor.gray)
        ∧ (hasSub (pyStrip (pyLower s)) "on track" = true →
            hasSub (pyStrip (pyLower s)) "delayed" = true →
            determine_health_color (Value.vstr s) = HColor.green)) := by
  refine ⟨by decide, by decide, ?_⟩
  intro hs
  have hv : determine_health_color (Value.vstr s) = classifyHealth (pyStrip (pyLower s)) := by
    have hne : ¬(Value.vstr s = Value.vnone ∨ Value.vstr s = Value.vstr "") := by
      rintro (h | h)
      · exact Value.noConfusion h
      · rw [Value.vstr.injEq] at h
        exact hs h
    unfold determine_health_color
    rw [if_neg hne]
    rfl
  refine ⟨?_, ?_, ?_, ?_, ?_⟩
  · intro h1
    rw [hv]
    simp [classifyHealth, h1]
  · intro h1 h2
    rw [hv]
    simp [classifyHealth, h1, h2]
  · intro h1 h2 h3
    rw [hv]
    simp [classifyHealth, h1, h2, h3]
  · intro h1 h2 h3
    rw [hv]
    simp [classifyHealth, h1, h2, h3]
  · intro h1 h2
    rw [hv]
    simp [classifyHealth, h1]

/-- C2 witness: the five spec examples, including the priority case of a
string containing both "delayed" and "on track". -/
theorem C2_health_classification_witness :
    determine_health_color (Value.vstr "On Track") = HColor.green
    ∧ determine_health_color (Value.vstr "At Risk") = HColor.orange
    ∧ determine_health_color (Value.vstr "Delayed") = HColor.red
    ∧ determine_health_color (Value.vstr "stable") = HColor.gray
    ∧ determine_health_color (Value.vstr "Delayed but back On Track") = HColor.green := by
  refine ⟨?_, ?_, ?_, ?_, ?_⟩
  · exact ((C2_health_classification "On Track").2.2 (by decide)).1 (by decide)
  · exact ((C2_health_classification "At Risk").2.2 (by decide)).2.1 (by decide) (by decide)
  · exact ((C2_health_classification "Delayed").2.2 (by decide)).2.2.1 (by decide) (by decide)
      (by decide)
  · exact ((C2_health_classification "stable").2.2 (by decide)).2.2.2.1 (by decide) (by decide)
      (by decide)
  · exact ((C2_health_classification "Delayed but back On Track").2.2 (by decide)).2.2.2.2
      (by decide) (by decide)

theorem fcAux_none_iff (hs : List String) (cands : List String) :
    fcAux hs cands = none ↔ ∀ n ∈ cands, ∀ c ∈ hs, ciNorm c ≠ ciNorm n := by
  induction cands with
  | nil => simp [fcAux]
  | cons name rest ih =>
    simp only [fcAux]
    by_cases hmem : name ∈ hs
    · rw [if_pos hmem]
      constructor
      · intro h
        exact Option.noConfusion h
      · intro h
        exact absurd rfl (h name (List.mem_cons_self name rest) name hmem)
    · rw [if_neg hmem]
      split
      next col hfind =>
        have hc := List.find?_some hfind
        have hcm := List.mem_of_find?_eq_some hfind
        rw [decide_eq_true_eq] at hc
        constructor
        · intro h
          exact Option.noConfusion h
        · intro h
          exact absurd hc (h name (List.mem_cons_self name rest) col hcm)
      next hfind =>
        have hnone := List.find?_eq_none.mp hfind
        constructor
        · intro h n hn c hc
          rcases List.mem_cons.mp hn with h1 | h1
          · subst h1
            have hx := hnone c hc
            simp only [decide_eq_true_eq] at hx
            exact hx
          · exact (ih.mp h) n h1 c hc
        · intro h
          apply ih.mpr
          intro n hn c hc
          exact h n (List.mem_cons.mpr (Or.inr hn)) c hc

theorem fcAux_some_spec (hs : List String) (cands : List String) (c : String)
    (h : fcAux hs cands = some c) :
    c ∈ hs ∧ ∃ pre name post, cands = pre ++ name :: post ∧ ciNorm c = ciNorm name ∧
      ∀ m ∈ pre, ∀ x ∈ hs, ciNorm x ≠ ciNorm m := by
  induction cands with
  | nil => exact Option.noConfusion h
  | cons name rest ih =>
    simp only [fcAux] at h
    by_cases hmem : name ∈ hs
    · rw [if_pos hmem] at h
      injection h with h2
      subst h2
      refine ⟨hmem, [], name, rest, rfl, rfl, ?_⟩
      intro m hm
      exact absurd hm (List.not_mem_nil m)
    · rw [if_neg hmem] at h
      split at h
      next col hfind =>
        injection h with h2
        subst h2
        have hcm := List.mem_of_find?_eq_some hfind
        have hcc := List.find?_some hfind
        rw [decide_eq_true_eq] at hcc
        refine ⟨hcm, [], name, rest, rfl, hcc, ?_⟩
        intro m hm
        exact absurd hm (List.not_mem_nil m)
      next hfind =>
        obtain ⟨hin, pre, nm, post, hsplit, hnorm, hpre⟩ := ih h
        have hnone := List.find?_eq_none.mp hfind
        refine ⟨hin, name :: pre, nm, post, by rw [hsplit, List.cons_append], hnorm, ?_⟩
        intro m hm x hx
        rcases List.mem_cons.mp hm with h1 | h1
        · subst h1
          have hx2 := hnone x hx
          simp only [decide_eq_true_eq] at hx2
          exact hx2
        · exact hpre m h1 x hx

theorem mem_missing_iff (df : Df) (key : String) :
    key ∈ (map_columns df).2 ↔ key ∈ COLUMN_KEYS ∧ find_column df key = none := by
  simp only [map_columns, List.mem_filter, Option.isNone_iff_eq_none]

/-- C5: column resolution returns a header for the first candidate name,
in the key's listed priority order, that equals some actual header under
case-insensitive comparison after stripping surrounding whitespace; keys
with no such candidate are reported unresolved; a header " Project Name "
resolves project_name just as "Project Name" does, and an earlier-listed
candidate wins over a later one. -/
theorem C5_column_resolution (df : Df) (key : String) :
    (find_column df key = none ↔
      ∀ n ∈ colCandidates key, ∀ c ∈ df.headers, ciNorm c ≠ ciNorm n)
    ∧ (∀ c, find_column df key = some c →
        c ∈ df.headers ∧ ∃ pre name post, colCandidates key = pre ++ name :: post ∧
          ciNorm c = ciNorm name ∧ ∀ m ∈ pre, ∀ x ∈ df.headers, ciNorm x ≠ ciNorm m)
    ∧ (key ∈ (map_columns df).2 ↔ key ∈ COLUMN_KEYS ∧ find_column df key = none)
    ∧ find_column (Df.mk [" Project Name "] []) "project_name" = some " Project Name "
    ∧ find_column (Df.mk ["Project Name"] []) "project_name" = some "Project Name"
    ∧ find_column (Df.mk ["Name", "Project Name"] []) "project_name" = some "Project Name" := by
  exact ⟨fcAux_none_iff df.headers (colCandidates key),
    fun c h => fcAux_some_spec df.headers (colCandidates key) c h,
    mem_missing_iff df key, by decide, by decide, by decide⟩

/-- C5 witness: the whitespace-padded header resolves and matches the
top-priority candidate; an unmatchable header set leaves the key
unresolved under the normalized comparison. -/
theorem C5_column_resolution_witness :
    (" Project Name " ∈ (Df.mk [" Project Name "] []).headers
      ∧ ∃ pre name post, colCandidates "project_name" = pre ++ name :: post ∧
          ciNorm " Project Name " = ciNorm name ∧
          ∀ m ∈ pre, ∀ x ∈ (Df.mk [" Project Name "] []).headers, ciNorm x ≠ ciNorm m)
    ∧ ciNorm "zzz" ≠ ciNorm "GM" := by
  constructor
  · exact (C5_column_resolution (Df.mk [" Project Name "] []) "project_name").2.1
      " Project Name " (by decide)
  · exact (C5_column_resolution (Df.mk ["zzz"] []) "gm").1.mp (by decide) "GM" (by decide)
      "zzz" (by decide)

/-- C4: ingestion of a decoded table returns exactly one of three shapes:
the missing-critical-columns error when no header resolves project_name
(regardless of the rows), the no-valid-projects error when every row has
a blank or missing name, and otherwise a record list with exactly one
record per row whose name is non-blank, paired with no error. -/
theorem C4_ingestion_outcomes (toDT : String → Option ℤ) (df : Df) (today : ℤ) :
    (find_column df "project_name" = none →
      process_excel_file toDT df today = (none, some "Missing critical columns: project_name"))
    ∧ (find_column df "project_name" ≠ none →
        (∀ r ∈ df.rows, nonBlankName (map_columns df).1 r = false) →
        process_excel_file toDT df today = (none, some "No valid projects found in the Excel file"))
    ∧ (find_column df "project_name" ≠ none →
        (∃ r ∈ df.rows, nonBlankName (map_columns df).1 r = true) →
        process_excel_file toDT df today =
          (some ((df.rows.filter (fun r => nonBlankName (map_columns df).1 r)).map
            (fun r => extract_project_data toDT r (map_columns df).1 today)), none)
        ∧ (df.rows.filter (fun r => nonBlankName (map_columns df).1 r)).map
            (fun r => extract_project_data toDT r (map_columns df).1 today) ≠ []
        ∧ ((df.rows.filter (fun r => nonBlankName (map_columns df).1 r)).map
            (fun r => extract_project_data toDT r (map_columns df).1 today)).length =
          (df.rows.filter (fun r => nonBlankName (map_columns df).1 r)).length) := by
  have hpn : "project_name" ∈ COLUMN_KEYS := by decide
  refine ⟨?_, ?_, ?_⟩
  · intro hnone
    have hmem : "project_name" ∈ (map_columns df).2 :=
      (mem_missing_iff df "project_name").mpr ⟨hpn, hnone⟩
    simp only [process_excel_file]
    rw [if_pos hmem]
  · intro hne hall
    have hnm : "project_name" ∉ (map_columns df).2 :=
      fun hmem => hne ((mem_missing_iff df "project_name").mp hmem).2
    have hfilter : df.rows.filter (fun r => nonBlankName (map_columns df).1 r) = [] := by
      rw [List.filter_eq_nil_iff]
      intro r hr
      rw [hall r hr]
      exact Bool.false_ne_true
    simp only [process_excel_file]
    rw [if_neg hnm, hfilter]
    rfl
  · intro hne hex
    have hnm : "project_name" ∉ (map_columns df).2 :=
      fun hmem => hne ((mem_missing_iff df "project_name").mp hmem).2
    obtain ⟨r, hr, hb⟩ := hex
    have hmem : r ∈ df.rows.filter (fun r => nonBlankName (map_columns df).1 r) :=
      List.mem_filter.mpr ⟨hr, hb⟩
    have hfne : df.rows.filter (fun r => nonBlankName (map_columns df).1 r) ≠ [] :=
      List.ne_nil_of_mem hmem
    have hmne : (df.rows.filter (fun r => nonBlankName (map_columns df).1 r)).map
        (fun r => extract_project_data toDT r (map_columns df).1 today) ≠ [] :=
      fun h0 => hfne (List.map_eq_nil_iff.mp h0)
    refine ⟨?_, hmne, List.length_map _ _⟩
    simp only [process_excel_file]
    rw [if_neg hnm, if_neg]
    rw [List.isEmpty_eq_false.mpr hmne]
    exact Bool.false_ne_true

/-- C4 witness: a table with no name column, a table whose single row has
a whitespace-only name, and a table with one named and one nameless row. -/
theorem C4_ingestion_outcomes_witness :
    process_excel_file toDT0 (Df.mk ["Budget"] []) 0 =
      (none, some "Missing critical columns: project_name")
    ∧ process_excel_file toDT0
        (Df.mk ["Project Name"] [[("Project Name", Value.vstr " ")]]) 0 =
      (none, some "No valid projects found in the Excel file")
    ∧ (process_excel_file toDT0
        (Df.mk ["Project Name"]
          [[("Project Name", Value.vstr "Alpha")], [("Project Name", Value.vnone)]]) 0).2 = none
    ∧ (process_excel_file toDT0
        (Df.mk ["Project Name"]
          [[("Project Name", Value.vstr "Alpha")], [("Project Name", Value.vnone)]]) 0).1 ≠
      none := by
  have h1 := (C4_ingestion_outcomes toDT0 (Df.mk ["Budget"] []) 0).1 (by decide)
  have h2 := (C4_ingestion_outcomes toDT0
      (Df.mk ["Project Name"] [[("Project Name", Value.vstr " ")]]) 0).2.1 (by decide) (by decide)
  have h3 := (C4_ingestion_outcomes toDT0
      (Df.mk ["Project Name"]
        [[("Project Name", Value.vstr "Alpha")], [("Project Name", Value.vnone)]]) 0).2.2
      (by decide) (by decide)
  refine ⟨h1, h2, ?_, ?_⟩
  · rw [h3.1]
  · rw [h3.1]
    simp

/-- C3 counterexample: the source removes every `%` character before
parsing, not only a trailing one, so the text "4%0" parses as 40 where
the claimed strip-one-trailing-percent reading fails and yields the
default. -/
theorem C3_percentage_counterexample :
    parse_percentage (Value.vstr "4%0") 0 = 40
    ∧ parse_percentage_claim (Value.vstr "4%0") 0 = 0
    ∧ parse_percentage (Value.vstr "4%0") 0 ≠ parse_percentage_claim (Value.vstr "4%0") 0 := by
  have key : parse_percentage (Value.vstr "4%0") 0 =
      if (((40:ℕ) : ℚ) * (10:ℚ) ^ (0:ℤ)) ≤ 1 then (((40:ℕ) : ℚ) * (10:ℚ) ^ (0:ℤ)) * 100
      else (((40:ℕ) : ℚ) * (10:ℚ) ^ (0:ℤ)) := rfl
  have h1 : parse_percentage (Value.vstr "4%0") 0 = 40 := by
    rw [key, if_neg (by norm_num)]
    norm_num
  have h2 : parse_percentage_claim (Value.vstr "4%0") 0 = 0 := rfl
  refine ⟨h1, h2, ?_⟩
  rw [h1, h2]
  norm_num

/-- C3 (amended): the percentage parser returns the default on missing or
empty input; a numeric value is scaled by 100 exactly when it is at most
1; a non-empty text value has every `%` character removed (not only a
trailing one) and surrounding whitespace stripped, the remainder is
parsed as a number with the same at-most-1 scaling rule, and any parse
failure yields the default; "40%" parses to 40, 0.4 to 40, and 40 stays
40. -/
theorem C3_percentage_amended (q d : ℚ) (s : String) :
    parse_percentage Value.vnone d = d
    ∧ parse_percentage (Value.vnum q) d = (if q ≤ 1 then q * 100 else q)
    ∧ parse_percentage (Value.vstr "") d = d
    ∧ (s ≠ "" →
        parse_percentage (Value.vstr s) d =
          (match pyF (pyStrip (pyRemove s "%")) with
           | some x => if x ≤ 1 then x * 100 else x
           | none => d))
    ∧ parse_percentage (Value.vstr "40%") 0 = 40
    ∧ parse_percentage (Value.vnum (2/5)) 0 = 40
    ∧ parse_percentage (Value.vnum 40) 0 = 40 := by
  have key : parse_percentage (Value.vstr "40%") 0 =
      if (((40:ℕ) : ℚ) * (10:ℚ) ^ (0:ℤ)) ≤ 1 then (((40:ℕ) : ℚ) * (10:ℚ) ^ (0:ℤ)) * 100
      else (((40:ℕ) : ℚ) * (10:ℚ) ^ (0:ℤ)) := rfl
  refine ⟨rfl, rfl, rfl, ?_, ?_, ?_, ?_⟩
  · intro hs
    simp only [parse_percentage]
    rw [if_neg hs]
  · rw [key, if_neg (by norm_num)]
    norm_num
  · have hq : parse_percentage (Value.vnum (2/5)) 0 =
        if (2/5 : ℚ) ≤ 1 then (2/5 : ℚ) * 100 else (2/5 : ℚ) := rfl
    rw [hq, if_pos (by norm_num)]
    norm_num
  · have hq : parse_percentage (Value.vnum 40) 0 =
        if (40 : ℚ) ≤ 1 then (40 : ℚ) * 100 else (40 : ℚ) := rfl
    rw [hq, if_neg (by norm_num)]

/-- C3 witness: unparseable text falls back to the caller's default, via
the general text clause of the amended claim. -/
theorem C3_percentage_amended_witness :
    parse_percentage (Value.vstr "abc") 7 = 7
    ∧ parse_percentage (Value.vstr "40%") 0 = 40 := by
  have h := (C3_percentage_amended 0 7 "abc").2.2.2.1 (by decide)
  exact ⟨h.trans rfl, (C3_percentage_amended 0 0 "x").2.2.2.2.1⟩

/-- C7 counterexample: a timeline cell of 150.14 is kept as-is (values
above 1 are not rescaled and nothing clamps to [0, 100]), so the stored
field is 150.1; and the stored variance rounds the unrounded difference
(110.06 → 110.1), which differs from rounding the difference of the
already-rounded stored fields (150.1 − 40.1 → 110.0). -/
theorem C7_timeline_counterexample :
    ¬ (extract_project_data toDT0
        [("timeline Actual", Value.vnum (15014/100)), ("timeline planned", Value.vnum (4008/100))]
        [("timeline_actual", "timeline Actual"), ("timeline_planned", "timeline planned")]
        0).timeline_actual ≤ 100
    ∧ (extract_project_data toDT0
        [("timeline Actual", Value.vnum (15014/100)), ("timeline planned", Value.vnum (4008/100))]
        [("timeline_actual", "timeline Actual"), ("timeline_planned", "timeline planned")]
        0).schedule_variance ≠
      round1 ((extract_project_data toDT0
        [("timeline Actual", Value.vnum (15014/100)), ("timeline planned", Value.vnum (4008/100))]
        [("timeline_actual", "timeline Actual"), ("timeline_planned", "timeline planned")]
        0).timeline_actual -
        (extract_project_data toDT0
        [("timeline Actual", Value.vnum (15014/100)), ("timeline planned", Value.vnum (4008/100))]
        [("timeline_actual", "timeline Actual"), ("timeline_planned", "timeline planned")]
        0).timeline_planned) := by
  have hp1 : parse_percentage (Value.vnum (15014/100)) 0 = 15014/100 := by
    rw [show parse_percentage (Value.vnum (15014/100)) 0 =
        if (15014/100 : ℚ) ≤ 1 then (15014/100 : ℚ) * 100 else (15014/100 : ℚ) from rfl,
      if_neg (by norm_num)]
  have hp2 : parse_percentage (Value.vnum (4008/100)) 0 = 4008/100 := by
    rw [show parse_percentage (Value.vnum (4008/100)) 0 =
        if (4008/100 : ℚ) ≤ 1 then (4008/100 : ℚ) * 100 else (4008/100 : ℚ) from rfl,
      if_neg (by norm_num)]
  have ea : (extract_project_data toDT0
      [("timeline Actual", Value.vnum (15014/100)), ("timeline planned", Value.vnum (4008/100))]
      [("timeline_actual", "timeline Actual"), ("timeline_planned", "timeline planned")]
      0).timeline_actual = round1 (parse_percentage (Value.vnum (15014/100)) 0) := rfl
  have ep : (extract_project_data toDT0
      [("timeline Actual", Value.vnum (15014/100)), ("timeline planned", Value.vnum (4008/100))]
      [("timeline_actual", "timeline Actual"), ("timeline_planned", "timeline planned")]
      0).timeline_planned = round1 (parse_percentage (Value.vnum (4008/100)) 0) := rfl
  have ev : (extract_project_data toDT0
      [("timeline Actual", Value.vnum (15014/100)), ("timeline planned", Value.vnum (4008/100))]
      [("timeline_actual", "timeline Actual"), ("timeline_planned", "timeline planned")]
      0).schedule_variance =
      round1 (parse_percentage (Value.vnum (15014/100)) 0 -
        parse_percentage (Value.vnum (4008/100)) 0) := rfl
  have hra : round1 (15014/100) = ((1501 : ℤ) : ℚ) / 10 :=
    round1_eq_lo (15014/100) 1501 (by norm_num) (by norm_num) (by norm_num)
  have hrp : round1 (4008/100) = (((400 : ℤ) : ℚ) + 1) / 10 :=
    round1_eq_hi (4008/100) 400 (by norm_num) (by norm_num) (by norm_num)
  have hrv : round1 (15014/100 - 4008/100) = (((1100 : ℤ) : ℚ) + 1) / 10 :=
    round1_eq_hi (15014/100 - 4008/100) 1100 (by norm_num) (by norm_num) (by norm_num)
  constructor
  · rw [ea, hp1, hra]
    push_cast
    norm_num
  · rw [ev, ea, ep, hp1, hp2, hrv, hra, hrp]
    have hd : ((1501 : ℤ) : ℚ) / 10 - (((400 : ℤ) : ℚ) + 1) / 10 = 110 := by
      push_cast
      norm_num
    rw [hd]
    have hr110 : round1 (110 : ℚ) = ((1100 : ℤ) : ℚ) / 10 :=
      round1_eq_lo 110 1100 (by norm_num) (by norm_num) (by norm_num)
    rw [hr110]
    push_cast
    norm_num

/-- C7 (amended): the stored timeline fields are the one-decimal roundings
of the parsed percentages (no clamping to [0, 100] happens, and inputs at
most 1 were scaled by 100 by the parser), and the stored schedule
variance is the one-decimal rounding of the difference of the two parsed,
unrounded percentages; actual 35 and planned 40 give variance -5.0. -/
theorem C7_timeline_amended (toDT : String → Option ℤ) (row : Row) (cmap : CMap) (today : ℤ) :
    (extract_project_data toDT row cmap today).timeline_actual =
      round1 (parse_percentage (safe_get row cmap "timeline_actual" (Value.vstr "")) 0)
    ∧ (extract_project_data toDT row cmap today).timeline_planned =
      round1 (parse_percentage (safe_get row cmap "timeline_planned" (Value.vstr "")) 0)
    ∧ (extract_project_data toDT row cmap today).schedule_variance =
      round1 (parse_percentage (safe_get row cmap "timeline_actual" (Value.vstr "")) 0 -
        parse_percentage (safe_get row cmap "timeline_planned" (Value.vstr "")) 0)
    ∧ (extract_project_data toDT0
        [("timeline Actual", Value.vnum 35), ("timeline planned", Value.vnum 40)]
        [("timeline_actual", "timeline Actual"), ("timeline_planned", "timeline planned")]
        0).schedule_variance = -5 := by
  refine ⟨rfl, rfl, rfl, ?_⟩
  have e : (extract_project_data toDT0
      [("timeline Actual", Value.vnum 35), ("timeline planned", Value.vnum 40)]
      [("timeline_actual", "timeline Actual"), ("timeline_planned", "timeline planned")]
      0).schedule_variance =
      round1 (parse_percentage (Value.vnum 35) 0 - parse_percentage (Value.vnum 40) 0) := rfl
  have hp35 : parse_percentage (Value.vnum 35) 0 = 35 := by
    rw [show parse_percentage (Value.vnum 35) 0 =
        if (35 : ℚ) ≤ 1 then (35 : ℚ) * 100 else (35 : ℚ) from rfl, if_neg (by norm_num)]
  have hp40 : parse_percentage (Value.vnum 40) 0 = 40 := by
    rw [show parse_percentage (Value.vnum 40) 0 =
        if (40 : ℚ) ≤ 1 then (40 : ℚ) * 100 else (40 : ℚ) from rfl, if_neg (by norm_num)]
  rw [e, hp35, hp40]
  have hd : (35 : ℚ) - 40 = -5 := by norm_num
  rw [hd]
  have hr : round1 (-5 : ℚ) = ((-50 : ℤ) : ℚ) / 10 :=
    round1_eq_lo (-5) (-50) (by norm_num) (by norm_num) (by norm_num)
  rw [hr]
  push_cast
  norm_num

/-- C8 counterexample: the extractor reads the ambient clock, so the same
row and column map evaluated two days apart yield different records (the
days-remaining field moves from 5 to 3). -/
theorem C8_purity_counterexample :
    (extract_project_data toDT0 [("Contract End Date", Value.vdate 5)]
      [("contract_end_date", "Contract End Date")] 0).days_remaining = 5
    ∧ (extract_project_data toDT0 [("Contract End Date", Value.vdate 5)]
      [("contract_end_date", "Contract End Date")] 2).days_remaining = 3
    ∧ extract_project_data toDT0 [("Contract End Date", Value.vdate 5)]
        [("contract_end_date", "Contract End Date")] 0 ≠
      extract_project_data toDT0 [("Contract End Date", Value.vdate 5)]
        [("contract_end_date", "Contract End Date")] 2 := by
  refine ⟨by decide, by decide, ?_⟩
  intro h
  have h2 := congrArg ProjectRecord.days_remaining h
  exact absurd h2 (by decide)

/-- C8 (amended): the extractor is a pure function of its two inputs and
the current date; the current date influences only the days-remaining
field, so records taken at any two instants agree after that field is
forgotten. -/
theorem C8_purity_amended (toDT : String → Option ℤ) (row : Row) (cmap : CMap) (t1 t2 : ℤ) :
    stripDays (extract_project_data toDT row cmap t1) =
      stripDays (extract_project_data toDT row cmap t2) := rfl

/-- C9 counterexample: placeholder text and blank non-cleaned fields
both reach the renderers un-normalized: a risks cell reading "TBD" — a
recognized placeholder phrase — survives extraction verbatim (the text
cleaner replaces only blank/missing text, the formatter is the identity
without an LLM client, and even with a client the per-field guard skips
the exact text "TBD"); and on an all-missing row the stored health field
is the empty string and service_performance the literal "TBD", neither of
which is the canonical placeholder. -/
theorem C9_placeholder_counterexample :
    (extract_project_data toDT0 [("Risks", Value.vstr "TBD")] [("risks", "Risks")] 0).risks = "TBD"
    ∧ format_project_text false noLLM
        (extract_project_data toDT0 [("Risks", Value.vstr "TBD")] [("risks", "Risks")] 0) =
      extract_project_data toDT0 [("Risks", Value.vstr "TBD")] [("risks", "Risks")] 0
    ∧ (format_project_text true noLLM
        (extract_project_data toDT0 [("Risks", Value.vstr "TBD")] [("risks", "Risks")] 0)).risks =
      "TBD"
    ∧ "TBD" ≠ "[To be provided]"
    ∧ (extract_project_data toDT0 [] [] 0).health = Value.vstr ""
    ∧ (extract_project_data toDT0 [] [] 0).service_performance = Value.vstr "TBD"
    ∧ format_project_text false noLLM (extract_project_data toDT0 [] [] 0) =
      extract_project_data toDT0 [] [] 0
    ∧ Value.vstr "" ≠ Value.vstr "[To be provided]" := by
  exact ⟨by decide, rfl, by decide, by decide, by decide, by decide, rfl, by decide⟩

/-- C9 (amended): of a record's free-text fields, exactly the six passed
through the text cleaner — kpi, issues, risks, current and future
activities, comments — are normalized to the canonical placeholder when
their cell is blank or missing; the health field is stored raw (a blank
or missing cell leaves it the empty string) and service_performance
defaults to the literal "TBD", neither normalized; text containing a
recognized placeholder phrase is rewritten to the canonical placeholder
only by the optional LLM formatter, and only when a client is available
(without one the record passes through unchanged); the numeric
days-remaining field defaults to 0 rather than to a placeholder string. -/
theorem C9_placeholder_amended (toDT : String → Option ℤ) (row : Row) (cmap : CMap)
    (today t : ℤ) (llm : String → String → Option String) (s context : String)
    (p : ProjectRecord) :
    (safe_get row cmap "kpi" (Value.vstr "") = Value.vstr "" →
      (extract_project_data toDT row cmap today).kpi = "[To be provided]")
    ∧ (safe_get row cmap "issues" (Value.vstr "") = Value.vstr "" →
      (extract_project_data toDT row cmap today).issues = "[To be provided]")
    ∧ (safe_get row cmap "risks" (Value.vstr "") = Value.vstr "" →
      (extract_project_data toDT row cmap today).risks = "[To be provided]")
    ∧ (safe_get row cmap "current_activities" (Value.vstr "") = Value.vstr "" →
      (extract_project_data toDT row cmap today).current_activities = "[To be provided]")
    ∧ (safe_get row cmap "future_activities" (Value.vstr "") = Value.vstr "" →
      (extract_project_data toDT row cmap today).future_activities = "[To be provided]")
    ∧ (safe_get row cmap "comments" (Value.vstr "") = Value.vstr "" →
      (extract_project_data toDT row cmap today).comments = "[To be provided]")
    ∧ (extract_project_data toDT row cmap today).health =
        safe_get row cmap "project_health" (Value.vstr "")
    ∧ (extract_project_data toDT row cmap today).service_performance =
        safe_get row cmap "service_performance" (Value.vstr "TBD")
    ∧ (pyStrip s ≠ "" →
        (placeholder_phrases.any fun ph => hasSub (pyLower s) ph) = true →
        format_text true llm s context = "[To be provided]")
    ∧ format_project_text false llm p = p
    ∧ calculate_days_remaining none t = 0 := by
  refine ⟨?_, ?_, ?_, ?_, ?_, ?_, rfl, rfl, ?_, rfl, rfl⟩
  · intro h
    show clean_text (safe_get row cmap "kpi" (Value.vstr "")) 200 = "[To be provided]"
    rw [h]
    rfl
  · intro h
    show clean_text (safe_get row cmap "issues" (Value.vstr "")) 500 = "[To be provided]"
    rw [h]
    rfl
  · intro h
    show clean_text (safe_get row cmap "risks" (Value.vstr "")) 500 = "[To be provided]"
    rw [h]
    rfl
  · intro h
    show clean_text (safe_get row cmap "current_activities" (Value.vstr "")) 500 = "[To be provided]"
    rw [h]
    rfl
  · intro h
    show clean_text (safe_get row cmap "future_activities" (Value.vstr "")) 500 = "[To be provided]"
    rw [h]
    rfl
  · intro h
    show clean_text (safe_get row cmap "comments" (Value.vstr "")) 500 = "[To be provided]"
    rw [h]
    rfl
  · intro hs hph
    have hs0 : s ≠ "" := fun h => hs (by rw [h]; rfl)
    have hcond : (!true || decide (s = "") || decide (pyStrip s = "")) = false := by
      simp [hs0, hs]
    simp only [format_text]
    rw [hcond, if_neg Bool.false_ne_true, if_pos hph]

/-- C9 witness: on a row with a missing risks cell the stored field is the
canonical placeholder; with a client available the phrase "tbd" is
rewritten to the canonical placeholder. -/
theorem C9_placeholder_amended_witness :
    (extract_project_data toDT0 [] [] 0).risks = "[To be provided]"
    ∧ format_text true noLLM "tbd" "risks" = "[To be provided]" := by
  have h := C9_placeholder_amended toDT0 [] [] 0 0 noLLM "tbd" "risks"
    (extract_project_data toDT0 [] [] 0)
  exact ⟨h.2.2.1 (by decide), h.2.2.2.2.2.2.2.2.1 (by decide) (by decide)⟩

/-- C10: on non-blank text input the cleaner returns the
whitespace-collapsed, stripped string when its length is at most the
maximum, and otherwise its first max-length characters followed by the
three-character marker "..."; the result never exceeds max + 3 characters
and exceeds max exactly when truncation occurred. -/
theorem C10_clean_text (s : String) (m : ℕ) (hs : s ≠ "") :
    ((joinWords (words (trimList s.data))).length ≤ m →
      clean_text (Value.vstr s) m = String.mk (joinWords (words (trimList s.data))))
    ∧ (m < (joinWords (words (trimList s.data))).length →
      clean_text (Value.vstr s) m =
        String.mk ((joinWords (words (trimList s.data))).take m ++ ['.', '.', '.']))
    ∧ (clean_text (Value.vstr s) m).data.length ≤ m + 3
    ∧ (m < (clean_text (Value.vstr s) m).data.length ↔
        m < (joinWords (words (trimList s.data))).length)
    ∧ clean_text (Value.vstr " hello   world ") 500 = "hello world"
    ∧ clean_text (Value.vstr "abcdef") 4 = "abcd..." := by
  have hc : clean_text (Value.vstr s) m = clean_core s m := by
    simp only [clean_text]
    rw [if_neg hs]
  refine ⟨?_, ?_, ?_, ?_, by decide, by decide⟩
  · intro h
    rw [hc]
    simp only [clean_core]
    rw [if_neg (not_lt.mpr h)]
  · intro h
    rw [hc]
    simp only [clean_core]
    rw [if_pos h]
  · rw [hc]
    simp only [clean_core]
    split_ifs with h
    · show ((joinWords (words (trimList s.data))).take m ++ ['.', '.', '.']).length ≤ m + 3
      rw [List.length_append, List.length_take]
      simp only [List.length_cons, List.length_nil]
      omega
    · show (joinWords (words (trimList s.data))).length ≤ m + 3
      omega
  · rw [hc]
    simp only [clean_core]
    split_ifs with h
    · show m < ((joinWords (words (trimList s.data))).take m ++ ['.', '.', '.']).length ↔
        m < (joinWords (words (trimList s.data))).length
      rw [List.length_append, List.length_take]
      simp only [List.length_cons, List.length_nil]
      omega
    · show m < (joinWords (words (trimList s.data))).length ↔
        m < (joinWords (words (trimList s.data))).length
      exact Iff.rfl

/-- C10 witness: internal whitespace collapses to single spaces within the
length budget, and a six-character word truncates at four characters plus
the marker. -/
theorem C10_clean_text_witness :
    clean_text (Value.vstr "a  b") 500 = "a b"
    ∧ clean_text (Value.vstr "abcdef") 4 = "abcd..." := by
  have h := (C10_clean_text "a  b" 500 (by decide)).1 (by decide)
  exact ⟨h.trans (by decide), ((C10_clean_text "x" 1 (by decide)).2.2.2.2).2⟩
